import Mathlib

/-!
Verification development for the dataset generator `scripts/generate-data.py`.

The script writes three CSV files (players, matches, a second match batch with
intentional duplicates).  We embed it shallowly: file lines are `List Char`,
Python's global random stream is an oracle `Nat → Nat` indexed by draw
position, `random.randint(a, b)` becomes `a + r % (b - a + 1)` (which lands in
`[a, b]` for every oracle value, matching the guaranteed range of the Python
call), and `random.choice xs` becomes indexing by an oracle value modulo the
list length.  Timestamps are seconds since 2023-01-01 00:00:00 and are
rendered through an explicit civil-calendar model of `strftime('%Y-%m-%d
%H:%M:%S')`.
-/

namespace GenData

/-! ## Character classes and decimal rendering -/

def isDigitChar (c : Char) : Bool := 48 ≤ c.toNat && c.toNat ≤ 57

def isLowerAlpha (c : Char) : Bool := 97 ≤ c.toNat && c.toNat ≤ 122

/-- Characters that force `csv.writer` (dialect `excel`, QUOTE_MINIMAL) to
quote a field: the delimiter, the quote char, and the line-terminator chars. -/
def isCsvSpecial (c : Char) : Bool := c = ',' || c = '"' || c = '\n' || c = '\r'

def natDigitsAux : Nat → Nat → List Char
  | 0, _ => []
  | fuel + 1, n =>
    if n < 10 then [Nat.digitChar n]
    else natDigitsAux fuel (n / 10) ++ [Nat.digitChar (n % 10)]

/-- Decimal rendering of a natural number; models Python `str(n)` and
f-string interpolation of a nonnegative int. -/
def natDigits (n : Nat) : List Char := natDigitsAux (n + 1) n

/-- Parse a digit string back to a number (left inverse of `natDigits`). -/
def digitsVal (l : List Char) : Nat := l.foldl (fun a c => 10 * a + (c.toNat - 48)) 0

theorem natDigitsAux_stable (f1 : Nat) : ∀ n f2, n < f1 → n < f2 →
    natDigitsAux f1 n = natDigitsAux f2 n := by
  induction f1 with
  | zero => intro n f2 h; omega
  | succ f1 ih =>
    intro n f2 h1 h2
    cases f2 with
    | zero => omega
    | succ f2 =>
      simp only [natDigitsAux]
      by_cases h : n < 10
      · simp [h]
      · simp only [h, if_false]
        have hdiv : n / 10 < n := Nat.div_lt_self (by omega) (by omega)
        rw [ih (n / 10) f2 (by omega) (by omega)]

theorem natDigits_eq (n : Nat) :
    natDigits n = if n < 10 then [Nat.digitChar n]
      else natDigits (n / 10) ++ [Nat.digitChar (n % 10)] := by
  unfold natDigits
  conv_lhs => rw [natDigitsAux]
  by_cases h : n < 10
  · simp [h]
  · simp only [h, if_false]
    have hdiv : n / 10 < n := Nat.div_lt_self (by omega) (by omega)
    rw [natDigitsAux_stable n (n / 10) (n / 10 + 1) (by omega) (by omega)]

theorem isDigitChar_digitChar {d : Nat} (h : d < 10) :
    isDigitChar (Nat.digitChar d) = true := by
  interval_cases d <;> decide

theorem natDigits_digits (n : Nat) : ∀ c ∈ natDigits n, isDigitChar c = true := by
  induction n using Nat.strong_induction_on with
  | _ n ih =>
    rw [natDigits_eq]
    by_cases h : n < 10
    · simp only [h, if_true, List.mem_singleton]
      rintro c rfl
      exact isDigitChar_digitChar h
    · simp only [h, if_false, List.mem_append, List.mem_singleton]
      rintro c (hc | rfl)
      · exact ih (n / 10) (Nat.div_lt_self (by omega) (by omega)) c hc
      · exact isDigitChar_digitChar (Nat.mod_lt n (by omega))

theorem natDigits_ne_nil (n : Nat) : natDigits n ≠ [] := by
  rw [natDigits_eq]
  by_cases h : n < 10 <;> simp [h]

theorem digitChar_toNat {d : Nat} (h : d < 10) : (Nat.digitChar d).toNat = 48 + d := by
  interval_cases d <;> decide

theorem digitsVal_aux (n : Nat) : ∀ a : Nat,
    (natDigits n).foldl (fun a c => 10 * a + (c.toNat - 48)) a
      = a * 10 ^ (natDigits n).length + n := by
  induction n using Nat.strong_induction_on with
  | _ n ih =>
    intro a
    rw [natDigits_eq]
    by_cases h : n < 10
    · simp only [h, if_true, List.foldl_cons, List.foldl_nil, List.length_singleton]
      rw [digitChar_toNat h]
      ring_nf
      omega
    · simp only [h, if_false, List.foldl_append, List.foldl_cons, List.foldl_nil,
        List.length_append, List.length_singleton]
      rw [ih (n / 10) (Nat.div_lt_self (by omega) (by omega)) a]
      rw [digitChar_toNat (Nat.mod_lt n (by omega))]
      have : 48 + n % 10 - 48 = n % 10 := by omega
      rw [this, pow_succ]
      have hmod : 10 * (n / 10) + n % 10 = n := by omega
      ring_nf
      omega

theorem digitsVal_natDigits (n : Nat) : digitsVal (natDigits n) = n := by
  unfold digitsVal
  rw [digitsVal_aux n 0]
  simp

theorem natDigits_injective : Function.Injective natDigits := by
  intro a b h
  have := congrArg digitsVal h
  rwa [digitsVal_natDigits, digitsVal_natDigits] at this

/-! ## CSV rows: joining, quoting, splitting -/

/-- Split a character list at every occurrence of `sep`.  On lines whose
fields contain no quote characters this is exactly how `csv.DictReader`
recovers the fields of a row. -/
def splitOnChar (sep : Char) : List Char → List (List Char)
  | [] => [[]]
  | c :: cs =>
    match splitOnChar sep cs with
    | [] => [[]]
    | f :: rest => if c = sep then [] :: f :: rest else (c :: f) :: rest

/-- Quoting of one field by `csv.writer` with the default QUOTE_MINIMAL
dialect: a field containing a delimiter, quote char or line-terminator char
is wrapped in quotes with inner quotes doubled; any other field is written
verbatim. -/
def csvField (f : List Char) : List Char :=
  if f.any isCsvSpecial then
    '"' :: (f.flatMap fun c => if c = '"' then ['"', '"'] else [c]) ++ ['"']
  else f

/-- One CSV row as written by `csv.writer.writerow` (without the trailing
line terminator): fields joined by the delimiter. -/
def csvRow : List (List Char) → List Char
  | [] => []
  | [f] => csvField f
  | f :: rest => csvField f ++ ',' :: csvRow rest

/-- A field none of whose characters would trigger CSV quoting. -/
def NoSpecial (f : List Char) : Prop := ∀ c ∈ f, isCsvSpecial c = false

theorem splitOnChar_ne_nil (sep : Char) (l : List Char) : splitOnChar sep l ≠ [] := by
  cases l with
  | nil => simp [splitOnChar]
  | cons c cs =>
    simp only [splitOnChar]
    rcases h : splitOnChar sep cs with _ | ⟨f, rest⟩
    · simp
    · by_cases hc : c = sep <;> simp [hc]

theorem splitOnChar_no_sep (sep : Char) (l : List Char) (h : ∀ c ∈ l, c ≠ sep) :
    splitOnChar sep l = [l] := by
  induction l with
  | nil => rfl
  | cons c cs ih =>
    have hc : c ≠ sep := h c (List.mem_cons_self c cs)
    have hrest : splitOnChar sep cs = [cs] := ih (fun x hx => h x (List.mem_cons_of_mem c hx))
    simp [splitOnChar, hrest, hc]

theorem splitOnChar_append (sep : Char) (xs ys : List Char) (h : ∀ c ∈ xs, c ≠ sep) :
    splitOnChar sep (xs ++ sep :: ys) = xs :: splitOnChar sep ys := by
  induction xs with
  | nil =>
    simp only [List.nil_append, splitOnChar]
    rcases hy : splitOnChar sep ys with _ | ⟨f, rest⟩
    · exact absurd hy (splitOnChar_ne_nil sep ys)
    · simp
  | cons c cs ih =>
    have hc : c ≠ sep := h c (List.mem_cons_self c cs)
    have hrec := ih (fun x hx => h x (List.mem_cons_of_mem c hx))
    simp only [List.cons_append, splitOnChar]
    rw [show splitOnChar sep (cs.append (sep :: ys)) = cs :: splitOnChar sep ys from hrec]
    simp [hc]

theorem NoSpecial.not_comma {f : List Char} (h : NoSpecial f) : ∀ c ∈ f, c ≠ ',' := by
  intro c hc he
  have := h c hc
  rw [he] at this
  simp [isCsvSpecial] at this

theorem csvField_of_noSpecial {f : List Char} (h : NoSpecial f) : csvField f = f := by
  unfold csvField
  have : f.any isCsvSpecial = false := by
    rw [List.any_eq_false]
    intro c hc
    simp [h c hc]
  simp [this]

theorem csvRow_three {f1 f2 f3 : List Char}
    (h1 : NoSpecial f1) (h2 : NoSpecial f2) (h3 : NoSpecial f3) :
    csvRow [f1, f2, f3] = f1 ++ ',' :: (f2 ++ ',' :: f3) := by
  simp [csvRow, csvField_of_noSpecial h1, csvField_of_noSpecial h2, csvField_of_noSpecial h3]

theorem splitOnChar_three {f1 f2 f3 : List Char}
    (h1 : NoSpecial f1) (h2 : NoSpecial f2) (h3 : NoSpecial f3) :
    splitOnChar ',' (f1 ++ ',' :: (f2 ++ ',' :: f3)) = [f1, f2, f3] := by
  rw [splitOnChar_append ',' f1 _ h1.not_comma,
      splitOnChar_append ',' f2 _ h2.not_comma,
      splitOnChar_no_sep ',' f3 h3.not_comma]

/-- Parse a written row back into its fields and re-emit it: the round trip
is the identity on rows whose fields contain no CSV-special characters.
This is why batch2's read-parse-rewrite cycle reproduces rows byte for
byte. -/
theorem csvRow_roundtrip {f1 f2 f3 : List Char}
    (h1 : NoSpecial f1) (h2 : NoSpecial f2) (h3 : NoSpecial f3) :
    csvRow (splitOnChar ',' (csvRow [f1, f2, f3])) = csvRow [f1, f2, f3] := by
  rw [csvRow_three h1 h2 h3, splitOnChar_three h1 h2 h3, csvRow_three h1 h2 h3]

/-! ## Last underscore-separated component of a name -/

/-- The final underscore-separated component of a character list. -/
def lastComp (l : List Char) : List Char :=
  (l.reverse.takeWhile (fun c => c ≠ '_')).reverse

theorem takeWhile_append_of_sat {p : Char → Bool} {l : List Char} {x : Char}
    (t : List Char) (hl : ∀ c ∈ l, p c = true) (hx : p x = false) :
    (l ++ x :: t).takeWhile p = l := by
  induction l with
  | nil => simp [List.takeWhile_cons, hx]
  | cons c cs ih =>
    have hc : p c = true := hl c (List.mem_cons_self c cs)
    have := ih (fun y hy => hl y (List.mem_cons_of_mem c hy))
    simp [List.takeWhile_cons, hc, this]

theorem lastComp_append (xs ys : List Char) (h : ∀ c ∈ ys, c ≠ '_') :
    lastComp (xs ++ '_' :: ys) = ys := by
  unfold lastComp
  rw [List.reverse_append, List.reverse_cons, List.append_assoc, List.singleton_append]
  rw [takeWhile_append_of_sat xs.reverse
      (by intro c hc; simpa using h c (List.mem_reverse.mp hc)) (by simp)]
  exact List.reverse_reverse ys

/-! ## Civil calendar and strftime model

Datetimes are modelled as seconds since 2023-01-01 00:00:00.  The script's
datetimes all lie between 2023-01-01 and 2024-01-02 (the window start plus at
most `time_delta.days` days plus at most 86400 seconds), so a calendar table
covering 2023 and 2024 is exhaustive for every reachable value; offsets
beyond the table (unreachable in the program) are clamped. -/

def monthLengths (leap : Bool) : List Nat :=
  [31, if leap then 29 else 28, 31, 30, 31, 30, 31, 31, 30, 31, 30, 31]

/-- Walk the month-length table: given the lengths of the remaining months,
the (1-based) number of the first of them, and a 0-based day offset, return
the (month, day-of-month) pair, day 1-based. -/
def findMonth : List Nat → Nat → Nat → Nat × Nat
  | [], m, d => (m, d + 1)
  | len :: rest, m, d => if d < len then (m, d + 1) else findMonth rest (m + 1) (d - len)

/-- Civil date (year, month, day) of a 0-based day offset from 2023-01-01. -/
def civilOfDayOffset (off : Nat) : Nat × Nat × Nat :=
  if off < 365 then
    ((2023 : Nat), findMonth (monthLengths false) 1 off)
  else if off < 365 + 366 then
    ((2024 : Nat), findMonth (monthLengths true) 1 (off - 365))
  else ((2025 : Nat), 1, 1)

/-- Two-digit zero-padded decimal rendering, as in strftime `%m %d %H %M %S`. -/
def pad2 (n : Nat) : List Char := if n < 10 then ['0', Nat.digitChar n] else natDigits n

/-- Rendering of a datetime (seconds since 2023-01-01 00:00:00) in the
format `%Y-%m-%d %H:%M:%S`. -/
def fmtTimestamp (t : Nat) : List Char :=
  let dayOff := t / 86400
  let rem := t % 86400
  let c := civilOfDayOffset dayOff
  natDigits c.1 ++ '-' :: (pad2 c.2.1 ++ '-' :: (pad2 c.2.2 ++ ' ' ::
    (pad2 (rem / 3600) ++ ':' :: (pad2 (rem % 3600 / 60) ++ ':' :: pad2 (rem % 60)))))

theorem findMonth_bounds : ∀ (lens : List Nat) (m0 d : Nat),
    (∀ x ∈ lens, x ≤ 31) → d < lens.sum →
    1 ≤ (findMonth lens m0 d).2 ∧ (findMonth lens m0 d).2 ≤ 31 ∧
    m0 ≤ (findMonth lens m0 d).1 ∧ (findMonth lens m0 d).1 < m0 + lens.length := by
  intro lens
  induction lens with
  | nil => intro m0 d _ hd; simp at hd
  | cons len rest ih =>
    intro m0 d hle hd
    simp only [findMonth]
    by_cases h : d < len
    · have : len ≤ 31 := hle len (List.mem_cons_self len rest)
      rw [if_pos h]
      refine ⟨by omega, by omega, le_refl m0, ?_⟩
      simp only [List.length_cons]
      omega
    · rw [if_neg h]
      have hsum : d - len < rest.sum := by
        simp only [List.sum_cons] at hd; omega
      obtain ⟨b1, b2, b3, b4⟩ :=
        ih (m0 + 1) (d - len) (fun x hx => hle x (List.mem_cons_of_mem len hx)) hsum
      refine ⟨b1, b2, by omega, ?_⟩
      simp only [List.length_cons]
      omega

theorem civilOfDayOffset_bounds (off : Nat) :
    ((civilOfDayOffset off).1 = 2023 ∨ (civilOfDayOffset off).1 = 2024 ∨
      (civilOfDayOffset off).1 = 2025) ∧
    1 ≤ (civilOfDayOffset off).2.1 ∧ (civilOfDayOffset off).2.1 ≤ 12 ∧
    1 ≤ (civilOfDayOffset off).2.2 ∧ (civilOfDayOffset off).2.2 ≤ 31 := by
  unfold civilOfDayOffset
  by_cases h1 : off < 365
  · obtain ⟨b1, b2, b3, b4⟩ := findMonth_bounds (monthLengths false) 1 off (by decide)
      (by rw [(by decide : (monthLengths false).sum = 365)]; exact h1)
    rw [if_pos h1]
    rw [(by decide : (monthLengths false).length = 12)] at b4
    exact ⟨Or.inl rfl, b3,
      (by omega : (findMonth (monthLengths false) 1 off).1 ≤ 12), b1, b2⟩
  · rw [if_neg h1]
    by_cases h2 : off < 365 + 366
    · obtain ⟨b1, b2, b3, b4⟩ := findMonth_bounds (monthLengths true) 1 (off - 365) (by decide)
        (by rw [(by decide : (monthLengths true).sum = 366)]; omega)
      rw [if_pos h2]
      rw [(by decide : (monthLengths true).length = 12)] at b4
      exact ⟨Or.inr (Or.inl rfl), b3,
        (by omega : (findMonth (monthLengths true) 1 (off - 365)).1 ≤ 12), b1, b2⟩
    · rw [if_neg h2]
      exact ⟨Or.inr (Or.inr rfl), (by omega : (1 : Nat) ≤ 1), (by omega : (1 : Nat) ≤ 12),
        (by omega : (1 : Nat) ≤ 1), (by omega : (1 : Nat) ≤ 31)⟩

theorem pad2_spec {n : Nat} (h : n < 100) :
    (pad2 n).length = 2 ∧ ∀ c ∈ pad2 n, isDigitChar c = true := by
  unfold pad2
  by_cases h10 : n < 10
  · rw [if_pos h10]
    refine ⟨rfl, ?_⟩
    intro c hc
    simp only [List.mem_cons, List.not_mem_nil, or_false] at hc
    rcases hc with rfl | rfl
    · decide
    · exact isDigitChar_digitChar h10
  · rw [if_neg h10]
    have hrw : natDigits n = [Nat.digitChar (n / 10), Nat.digitChar (n % 10)] := by
      rw [natDigits_eq]
      simp only [h10, if_false]
      rw [natDigits_eq]
      have : n / 10 < 10 := by omega
      simp [this]
    rw [hrw]
    refine ⟨rfl, ?_⟩
    intro c hc
    simp only [List.mem_cons, List.not_mem_nil, or_false] at hc
    rcases hc with rfl | rfl
    · exact isDigitChar_digitChar (by omega)
    · exact isDigitChar_digitChar (Nat.mod_lt n (by omega))

theorem natDigits_year {y : Nat} (h : y = 2023 ∨ y = 2024 ∨ y = 2025) :
    (natDigits y).length = 4 := by
  rcases h with rfl | rfl | rfl <;> decide

/-- Shape of a rendered timestamp: `\d-digit groups 4-2-2 2-2-2` joined by
the literal separators of `%Y-%m-%d %H:%M:%S`. -/
def TsShape (ts : List Char) : Prop :=
  ∃ y mo d h mi s : List Char,
    ts = y ++ '-' :: (mo ++ '-' :: (d ++ ' ' :: (h ++ ':' :: (mi ++ ':' :: s)))) ∧
    y.length = 4 ∧ mo.length = 2 ∧ d.length = 2 ∧
    h.length = 2 ∧ mi.length = 2 ∧ s.length = 2 ∧
    (∀ c ∈ y ++ mo ++ d ++ h ++ mi ++ s, isDigitChar c = true)

theorem fmtTimestamp_shape (t : Nat) : TsShape (fmtTimestamp t) := by
  unfold fmtTimestamp TsShape
  have hrem : t % 86400 < 86400 := Nat.mod_lt t (by omega)
  have hciv := civilOfDayOffset_bounds (t / 86400)
  have hh : t % 86400 / 3600 < 100 := by omega
  have hmi : t % 86400 % 3600 / 60 < 100 := by omega
  have hs : t % 86400 % 60 < 100 := by
    have := Nat.mod_lt (t % 86400) (by omega : 0 < 60)
    omega
  refine ⟨natDigits (civilOfDayOffset (t / 86400)).1,
    pad2 (civilOfDayOffset (t / 86400)).2.1, pad2 (civilOfDayOffset (t / 86400)).2.2,
    pad2 (t % 86400 / 3600), pad2 (t % 86400 % 3600 / 60), pad2 (t % 86400 % 60),
    rfl, natDigits_year hciv.1,
    (pad2_spec (by omega)).1, (pad2_spec (by omega)).1,
    (pad2_spec hh).1, (pad2_spec hmi).1, (pad2_spec hs).1, ?_⟩
  intro c hc
  simp only [List.mem_append] at hc
  rcases hc with ((((hc | hc) | hc) | hc) | hc) | hc
  · exact natDigits_digits _ c hc
  · exact (pad2_spec (by omega)).2 c hc
  · exact (pad2_spec (by omega)).2 c hc
  · exact (pad2_spec hh).2 c hc
  · exact (pad2_spec hmi).2 c hc
  · exact (pad2_spec hs).2 c hc

/-! ## The generator, embedded from `scripts/generate-data.py`

Configuration constants are the module-level constants of the script; the
generators themselves are parametrised over the counts so that properties can
be stated for the configured values and exercised on small instances. -/

def NUM_PLAYERS : Nat := 100000

def NUM_MATCHES : Nat := 500000

def NUM_BATCH2_MATCHES : Nat := 50000

/-- Model of `int(n * DUPLICATE_PERCENTAGE)` with `DUPLICATE_PERCENTAGE = 0.1`.
For every count in the script's range the IEEE-double product `n * 0.1`
truncates to the integer quotient `n / 10` (the double nearest 0.1 exceeds
1/10, so the product never falls below `n / 10`, and its fractional part
stays clear of the next integer), so the model uses exact division. -/
def duplicateCount (n : Nat) : Nat := n / 10

/-- Python `random.randint(a, b)`: an integer uniform in `[a, b]`, driven
here by one oracle value `r`.  Every oracle value yields a result in
`[a, b]` (when `a ≤ b`), and every result in `[a, b]` is hit by some oracle
value, mirroring the support of the Python distribution. -/
def randint (a b r : Nat) : Nat := a + r % (b - a + 1)

/-- Python `random.choice xs`: pick the element indexed by an oracle value
reduced modulo the length, so every element of `xs` is a possible pick. -/
def randChoice {α : Type} [Inhabited α] (xs : List α) (r : Nat) : α :=
  xs.getD (r % xs.length) default

/-- Seconds since 2023-01-01 00:00:00 of `datetime(2023, 1, 1)`. -/
def JAN1_2023 : Nat := 0

/-- Seconds since 2023-01-01 00:00:00 of `datetime(2024, 1, 1)` (365 days). -/
def JAN1_2024 : Nat := 365 * 86400

/-- Seconds since 2023-01-01 00:00:00 of `datetime(2023, 6, 1)` (151 days:
January through May of 2023). -/
def JUN1_2023 : Nat := 151 * 86400

/-- The script function `random_date(start, end)`: draw
`random.randint(0, (end - start).days)` days and `random.randint(0, 86400)`
seconds and add both to `start`.  Both bounds are inclusive, so the result
ranges up to one full day past `end`. -/
def random_date (startSec endSec rd rs : Nat) : Nat :=
  startSec + randint 0 ((endSec - startSec) / 86400) rd * 86400 + randint 0 86400 rs

/-- The ten adjectives of `generate_players`. -/
def adjectives : List (List Char) :=
  ["swift".data, "mighty".data, "clever".data, "brave".data, "silent".data,
   "fierce".data, "wise".data, "dark".data, "bright".data, "cool".data]

/-- The ten nouns of `generate_players`. -/
def nouns : List (List Char) :=
  ["dragon".data, "phoenix".data, "tiger".data, "wolf".data, "eagle".data,
   "ninja".data, "warrior".data, "mage".data, "knight".data, "hunter".data]

def emailDomain : List Char := "@gamers.example.com".data

/-- Username of player `i`: `f"{adj}_{noun}_{i}"` with `adj` and `noun`
chosen by `random.choice` (oracle values `ra`, `rn`). -/
def playerUsername (i ra rn : Nat) : List Char :=
  randChoice adjectives ra ++ '_' :: (randChoice nouns rn ++ '_' :: natDigits i)

/-- The three fields of the row for player `i`; the oracle supplies the four
draws of the loop body (adjective, noun, day offset, second offset). -/
def playerFields (rnd : Nat → Nat) (i : Nat) : List (List Char) :=
  [playerUsername i (rnd (4 * i)) (rnd (4 * i + 1)),
   playerUsername i (rnd (4 * i)) (rnd (4 * i + 1)) ++ emailDomain,
   fmtTimestamp (random_date JAN1_2023 JAN1_2024 (rnd (4 * i + 2)) (rnd (4 * i + 3)))]

def playersHeader : List Char := "username,email,created_at".data

/-- The function `generate_players`: lines of `players_historical.csv` (header first). -/
def generate_players (numPlayers : Nat) (rnd : Nat → Nat) : List (List Char) :=
  playersHeader :: (List.range numPlayers).map (fun i => csvRow (playerFields rnd i))

/-- Model of `random.randint(player_id_start, player_id_end)` with
`player_id_start = 11` and `player_id_end = 11 + numPlayers - 1`. -/
def matchPlayerId (numPlayers r : Nat) : Nat := randint 11 (11 + numPlayers - 1) r

def matchScore (r : Nat) : Nat := randint 100 5000 r

/-- The three fields of one match row (player id, score, timestamp in the
window `[startSec, endSec]` given by the caller). -/
def matchFields (numPlayers startSec endSec : Nat) (rnd : Nat → Nat) (i : Nat) :
    List (List Char) :=
  [natDigits (matchPlayerId numPlayers (rnd (4 * i))),
   natDigits (matchScore (rnd (4 * i + 1))),
   fmtTimestamp (random_date startSec endSec (rnd (4 * i + 2)) (rnd (4 * i + 3)))]

def matchesHeader : List Char := "player_id,score,played_at".data

/-- The function `generate_matches`: lines of `matches_historical.csv` (header first). -/
def generate_matches (numPlayers numMatches : Nat) (rnd : Nat → Nat) : List (List Char) :=
  matchesHeader ::
    (List.range numMatches).map
      (fun i => csvRow (matchFields numPlayers JAN1_2023 JAN1_2024 rnd i))

/-- The cached duplicate pool: `list(csv.DictReader(f))[:1000]` — the first
1000 data rows of the matches file, parsed into their fields.  On this
file's rows (no quoting, shown elsewhere) the DictReader parse is a split at
the delimiter. -/
def cachedRows (matchesLines : List (List Char)) : List (List (List Char)) :=
  ((matchesLines.drop 1).take 1000).map (splitOnChar ',')

/-- The function `generate_batch2_with_duplicates`: lines of `matches_batch2.csv`.
`num_new` freshly sampled rows (date window starting 2023-06-01) are written
first, then `num_duplicates` rows, each the uniformly random pick of
`random.choice` among the cached rows, re-rendered by `csv.writer`. -/
def generate_batch2_with_duplicates (numPlayers numBatch2 : Nat)
    (matchesLines : List (List Char)) (rnd : Nat → Nat) : List (List Char) :=
  let existing_matches := cachedRows matchesLines
  let num_duplicates := duplicateCount numBatch2
  let num_new := numBatch2 - num_duplicates
  matchesHeader ::
    ((List.range num_new).map
        (fun i => csvRow (matchFields numPlayers JUN1_2023 JAN1_2024 rnd i)) ++
      (List.range num_duplicates).map
        (fun j => csvRow (randChoice existing_matches (rnd (4 * num_new + j)))))

/-- Field `k` of a written line, as recovered by splitting at the
delimiter. -/
def fieldAt (line : List Char) (k : Nat) : List Char :=
  (splitOnChar ',' line).getD k []

/-! ## Character classes of the generated fields -/

/-- Union of every character class the generator can emit inside a field:
lowercase letters, digits, and the literal characters `_ @ . - space :`. -/
def isAllowedChar (c : Char) : Bool :=
  isLowerAlpha c || isDigitChar c || c = '_' || c = '@' || c = '.' ||
    c = '-' || c = ' ' || c = ':'

theorem isCsvSpecial_eq_false_of_toNat {c : Char}
    (h : c.toNat ≠ 44 ∧ c.toNat ≠ 34 ∧ c.toNat ≠ 10 ∧ c.toNat ≠ 13) :
    isCsvSpecial c = false := by
  unfold isCsvSpecial
  have h1 : c ≠ ',' := fun he => h.1 (by rw [he]; rfl)
  have h2 : c ≠ '"' := fun he => h.2.1 (by rw [he]; rfl)
  have h3 : c ≠ '\n' := fun he => h.2.2.1 (by rw [he]; rfl)
  have h4 : c ≠ '\r' := fun he => h.2.2.2 (by rw [he]; rfl)
  simp [h1, h2, h3, h4]

theorem isAllowedChar_noSpecial {c : Char} (h : isAllowedChar c = true) :
    isCsvSpecial c = false := by
  unfold isAllowedChar at h
  simp only [Bool.or_eq_true, decide_eq_true_eq] at h
  apply isCsvSpecial_eq_false_of_toNat
  rcases h with ((((((h | h) | h) | h) | h) | h) | h) | h
  · unfold isLowerAlpha at h
    simp only [Bool.and_eq_true, decide_eq_true_eq] at h
    omega
  · unfold isDigitChar at h
    simp only [Bool.and_eq_true, decide_eq_true_eq] at h
    omega
  all_goals subst h; refine ⟨by decide, by decide, by decide, by decide⟩

theorem noSpecial_of_allowed {f : List Char} (h : ∀ c ∈ f, isAllowedChar c = true) :
    NoSpecial f := fun c hc => isAllowedChar_noSpecial (h c hc)

theorem isAllowedChar_of_lower {c : Char} (h : isLowerAlpha c = true) :
    isAllowedChar c = true := by
  unfold isAllowedChar
  simp [h]

theorem isAllowedChar_of_digit {c : Char} (h : isDigitChar c = true) :
    isAllowedChar c = true := by
  unfold isAllowedChar
  simp [h]

theorem adjectives_sound : ∀ w ∈ adjectives, w ≠ [] ∧ ∀ c ∈ w, isLowerAlpha c = true := by
  decide

theorem nouns_sound : ∀ w ∈ nouns, w ≠ [] ∧ ∀ c ∈ w, isLowerAlpha c = true := by
  decide

theorem emailDomain_allowed : ∀ c ∈ emailDomain, isAllowedChar c = true := by decide

theorem randChoice_mem {α : Type} [Inhabited α] (xs : List α) (r : Nat) (h : xs ≠ []) :
    randChoice xs r ∈ xs := by
  unfold randChoice
  have hlen : 0 < xs.length := List.length_pos.mpr h
  have hr : r % xs.length < xs.length := Nat.mod_lt r hlen
  rw [List.getD_eq_getElem xs default hr]
  exact List.getElem_mem hr

theorem tsChar_allowed {ts : List Char} (h : TsShape ts) :
    ∀ c ∈ ts, isAllowedChar c = true := by
  obtain ⟨y, mo, d, hh, mi, s, heq, -, -, -, -, -, -, hdig⟩ := h
  subst heq
  intro c hc
  simp only [List.mem_append, List.mem_cons] at hc
  have digit_case : ∀ x ∈ y ++ mo ++ d ++ hh ++ mi ++ s, isAllowedChar x = true := by
    intro x hx
    exact isAllowedChar_of_digit (hdig x hx)
  rcases hc with hc | rfl | hc
  · exact digit_case c (by simp [hc])
  · decide
  · rcases hc with hc | rfl | hc
    · exact digit_case c (by simp [hc])
    · decide
    · rcases hc with hc | rfl | hc
      · exact digit_case c (by simp [hc])
      · decide
      · rcases hc with hc | rfl | hc
        · exact digit_case c (by simp [hc])
        · decide
        · rcases hc with hc | rfl | hc
          · exact digit_case c (by simp [hc])
          · decide
          · exact digit_case c (by simp [hc])

theorem username_allowed (i ra rn : Nat) :
    ∀ c ∈ playerUsername i ra rn, isAllowedChar c = true := by
  intro c hc
  unfold playerUsername at hc
  have hadj := (adjectives_sound _ (randChoice_mem adjectives ra (by decide))).2
  have hnoun := (nouns_sound _ (randChoice_mem nouns rn (by decide))).2
  simp only [List.mem_append, List.mem_cons] at hc
  rcases hc with hc | rfl | hc
  · exact isAllowedChar_of_lower (hadj c hc)
  · decide
  · rcases hc with hc | rfl | hc
    · exact isAllowedChar_of_lower (hnoun c hc)
    · decide
    · exact isAllowedChar_of_digit (natDigits_digits _ c hc)

theorem playerFields_allowed (rnd : Nat → Nat) (i : Nat) :
    ∀ f ∈ playerFields rnd i, ∀ c ∈ f, isAllowedChar c = true := by
  intro f hf
  unfold playerFields at hf
  simp only [List.mem_cons, List.not_mem_nil, or_false] at hf
  rcases hf with rfl | rfl | rfl
  · exact username_allowed i _ _
  · intro c hc
    rcases List.mem_append.mp hc with hc | hc
    · exact username_allowed i _ _ c hc
    · exact emailDomain_allowed c hc
  · exact tsChar_allowed (fmtTimestamp_shape _)

theorem matchFields_allowed (np s e : Nat) (rnd : Nat → Nat) (i : Nat) :
    ∀ f ∈ matchFields np s e rnd i, ∀ c ∈ f, isAllowedChar c = true := by
  intro f hf
  unfold matchFields at hf
  simp only [List.mem_cons, List.not_mem_nil, or_false] at hf
  rcases hf with rfl | rfl | rfl
  · intro c hc; exact isAllowedChar_of_digit (natDigits_digits _ c hc)
  · intro c hc; exact isAllowedChar_of_digit (natDigits_digits _ c hc)
  · exact tsChar_allowed (fmtTimestamp_shape _)

/-! ## Extracting fields back out of written lines -/

theorem splitOnChar_csvRow_three {f1 f2 f3 : List Char}
    (h1 : NoSpecial f1) (h2 : NoSpecial f2) (h3 : NoSpecial f3) :
    splitOnChar ',' (csvRow [f1, f2, f3]) = [f1, f2, f3] := by
  rw [csvRow_three h1 h2 h3]
  exact splitOnChar_three h1 h2 h3

theorem playerFields_noSpecial (rnd : Nat → Nat) (i : Nat) :
    ∀ f ∈ playerFields rnd i, NoSpecial f :=
  fun f hf => noSpecial_of_allowed (playerFields_allowed rnd i f hf)

theorem matchFields_noSpecial (np s e : Nat) (rnd : Nat → Nat) (i : Nat) :
    ∀ f ∈ matchFields np s e rnd i, NoSpecial f :=
  fun f hf => noSpecial_of_allowed (matchFields_allowed np s e rnd i f hf)

theorem playerLine_fields (rnd : Nat → Nat) (i : Nat) :
    splitOnChar ',' (csvRow (playerFields rnd i)) = playerFields rnd i := by
  have h := playerFields_noSpecial rnd i
  unfold playerFields at h ⊢
  exact splitOnChar_csvRow_three (h _ (by simp)) (h _ (by simp)) (h _ (by simp))

theorem matchLine_fields (np s e : Nat) (rnd : Nat → Nat) (i : Nat) :
    splitOnChar ',' (csvRow (matchFields np s e rnd i)) = matchFields np s e rnd i := by
  have h := matchFields_noSpecial np s e rnd i
  unfold matchFields at h ⊢
  exact splitOnChar_csvRow_three (h _ (by simp)) (h _ (by simp)) (h _ (by simp))

theorem matchLine_roundtrip (np s e : Nat) (rnd : Nat → Nat) (i : Nat) :
    csvRow (splitOnChar ',' (csvRow (matchFields np s e rnd i)))
      = csvRow (matchFields np s e rnd i) := by
  rw [matchLine_fields]

/-! ## Values carried by the written rows -/

theorem matchPlayerId_bounds (np r : Nat) (h : 1 ≤ np) :
    11 ≤ matchPlayerId np r ∧ matchPlayerId np r ≤ 10 + np := by
  unfold matchPlayerId randint
  have he : 11 + np - 1 - 11 + 1 = np := by omega
  rw [he]
  have := Nat.mod_lt r (show 0 < np by omega)
  omega

theorem matchScore_bounds (r : Nat) : 100 ≤ matchScore r ∧ matchScore r ≤ 5000 := by
  unfold matchScore randint
  have : r % (5000 - 100 + 1) < 4901 := Nat.mod_lt r (by omega)
  omega

theorem matchLine_pid (np s e : Nat) (rnd : Nat → Nat) (i : Nat) :
    digitsVal (fieldAt (csvRow (matchFields np s e rnd i)) 0)
      = matchPlayerId np (rnd (4 * i)) := by
  unfold fieldAt
  rw [matchLine_fields]
  unfold matchFields
  simp [digitsVal_natDigits]

theorem matchLine_score (np s e : Nat) (rnd : Nat → Nat) (i : Nat) :
    digitsVal (fieldAt (csvRow (matchFields np s e rnd i)) 1)
      = matchScore (rnd (4 * i + 1)) := by
  unfold fieldAt
  rw [matchLine_fields]
  unfold matchFields
  simp [digitsVal_natDigits]

theorem generate_matches_data (np nm : Nat) (rnd : Nat → Nat) :
    (generate_matches np nm rnd).drop 1
      = (List.range nm).map (fun i => csvRow (matchFields np JAN1_2023 JAN1_2024 rnd i)) :=
  rfl

theorem generate_players_data (np : Nat) (rnd : Nat → Nat) :
    (generate_players np rnd).drop 1
      = (List.range np).map (fun i => csvRow (playerFields rnd i)) :=
  rfl

theorem generate_batch2_data (np nb : Nat) (ml : List (List Char)) (rnd : Nat → Nat) :
    (generate_batch2_with_duplicates np nb ml rnd).drop 1
      = (List.range (nb - duplicateCount nb)).map
          (fun i => csvRow (matchFields np JUN1_2023 JAN1_2024 rnd i)) ++
        (List.range (duplicateCount nb)).map
          (fun j => csvRow (randChoice (cachedRows ml)
            (rnd (4 * (nb - duplicateCount nb) + j)))) :=
  rfl

theorem cachedRows_length (np nm : Nat) (rnd : Nat → Nat) :
    (cachedRows (generate_matches np nm rnd)).length = min 1000 nm := by
  unfold cachedRows
  rw [generate_matches_data]
  simp

theorem getD_mem {α : Type} (l : List α) (idx : Nat) (d : α) (h : idx < l.length) :
    l.getD idx d ∈ l := by
  rw [List.getD_eq_getElem _ _ h]
  exact List.getElem_mem h

theorem range_map_getD {α : Type} (n : Nat) (F : Nat → α) (idx : Nat) (d : α)
    (h : idx < n) :
    ((List.range n).map F).getD idx d = F idx := by
  have hl : idx < ((List.range n).map F).length := by simpa using h
  rw [List.getD_eq_getElem _ _ hl, List.getElem_map, List.getElem_range]

theorem take_range_map_getD {α : Type} (n k : Nat) (F : Nat → α) (idx : Nat) (d : α)
    (h1 : idx < k) (h2 : idx < n) :
    (((List.range n).map F).take k).getD idx d = F idx := by
  have hl : idx < (((List.range n).map F).take k).length := by simp; omega
  rw [List.getD_eq_getElem _ _ hl, List.getElem_take, List.getElem_map, List.getElem_range]

theorem take_append_of_length {α : Type} (n : Nat) (l1 l2 : List α) (h : l1.length = n) :
    (l1 ++ l2).take n = l1 := by
  rw [← h]
  exact List.take_left l1 l2

theorem map_getD {α β : Type} (f : α → β) (l : List α)
    (idx : Nat) (d1 : β) (d2 : α) (h : idx < l.length) :
    (l.map f).getD idx d1 = f (l.getD idx d2) := by
  rw [List.getD_eq_getElem _ _ (by simpa using h), List.getD_eq_getElem _ _ h,
    List.getElem_map]

/-- Each duplicate row of batch2 is, byte for byte, the matches data row at
the oracle-chosen index below `min 1000 nm`: `random.choice` picks a parsed
row of the cached prefix, and re-writing the parsed fields reproduces the
original line exactly. -/
theorem batch2_dup_master (np nm : Nat) (hnm : 1 ≤ nm) (rndM : Nat → Nat) (r : Nat) :
    ∃ i, i < nm ∧ i < 1000 ∧
      i = r % (cachedRows (generate_matches np nm rndM)).length ∧
      csvRow (randChoice (cachedRows (generate_matches np nm rndM)) r)
        = csvRow (matchFields np JAN1_2023 JAN1_2024 rndM i) ∧
      csvRow (randChoice (cachedRows (generate_matches np nm rndM)) r)
        = ((generate_matches np nm rndM).drop 1).getD i [] ∧
      csvRow (randChoice (cachedRows (generate_matches np nm rndM)) r)
        ∈ ((generate_matches np nm rndM).drop 1).take 1000 := by
  have hlen := cachedRows_length np nm rndM
  have hpos : 0 < (cachedRows (generate_matches np nm rndM)).length := by
    rw [hlen]; omega
  obtain ⟨idx, hidxlt, hidxeq⟩ : ∃ idx,
      idx < (cachedRows (generate_matches np nm rndM)).length ∧
      idx = r % (cachedRows (generate_matches np nm rndM)).length :=
    ⟨_, Nat.mod_lt r hpos, rfl⟩
  have h1000 : idx < 1000 := by omega
  have hm : idx < nm := by omega
  have htklen : idx < ((((List.range nm).map
      (fun i => csvRow (matchFields np JAN1_2023 JAN1_2024 rndM i))).take 1000)).length := by
    simp
    omega
  have hchoice : randChoice (cachedRows (generate_matches np nm rndM)) r
      = splitOnChar ',' (csvRow (matchFields np JAN1_2023 JAN1_2024 rndM idx)) := by
    show ((((List.range nm).map
        (fun i => csvRow (matchFields np JAN1_2023 JAN1_2024 rndM i))).take 1000).map
          (splitOnChar ',')).getD
        (r % (cachedRows (generate_matches np nm rndM)).length) [] = _
    rw [← hidxeq, map_getD _ _ idx [] [] htklen, take_range_map_getD nm 1000 _ idx [] h1000 hm]
  have hline : csvRow (randChoice (cachedRows (generate_matches np nm rndM)) r)
      = csvRow (matchFields np JAN1_2023 JAN1_2024 rndM idx) := by
    rw [hchoice, matchLine_fields]
  refine ⟨idx, hm, h1000, hidxeq, hline, ?_, ?_⟩
  · show _ = (((List.range nm).map
        (fun i => csvRow (matchFields np JAN1_2023 JAN1_2024 rndM i))).getD idx [])
    rw [hline, range_map_getD nm _ idx [] hm]
  · have hmem : (((List.range nm).map
        (fun i => csvRow (matchFields np JAN1_2023 JAN1_2024 rndM i))).take 1000).getD idx []
        ∈ (((List.range nm).map
          (fun i => csvRow (matchFields np JAN1_2023 JAN1_2024 rndM i))).take 1000) :=
      getD_mem _ idx [] htklen
    rw [take_range_map_getD nm 1000 _ idx [] h1000 hm] at hmem
    show csvRow (randChoice (cachedRows (generate_matches np nm rndM)) r)
      ∈ (((List.range nm).map
        (fun i => csvRow (matchFields np JAN1_2023 JAN1_2024 rndM i))).take 1000)
    rw [hline]
    exact hmem

/-! ## Claim theorems -/

/-- Constant-zero oracle, used to exercise theorems on concrete runs. -/
def zeroRnd : Nat → Nat := fun _ => 0

/-- Oracle whose third draw (the day offset of player 0's `random_date`) is
365, the inclusive upper bound of `random.randint(0, time_delta.days)` for
the 2023 window; all other draws are 0. -/
def c1Oracle : Nat → Nat := fun k => if k = 2 then 365 else 0

/-- C1: the claim states every players `created_at` lies in
`[2023-01-01 00:00:00, 2024-01-01 00:00:00)`.  The code violates it:
`random_date` draws `random.randint(0, time_delta.days)` days and
`random.randint(0, 86400)` seconds with both bounds inclusive, so the draw
(days = 365, seconds = 0) — realised by `c1Oracle` — makes player 0's
`created_at` field exactly `2024-01-01 00:00:00`, which is outside the
half-open window, and the draw (days = 365, seconds = 86400) reaches a full
day past the window end.  The same `random_date` is used for both match
windows. -/
theorem c1_created_at_escapes_window :
    fieldAt (((generate_players 1 c1Oracle).drop 1).getD 0 []) 2
        = ('2' :: ('0' :: ('2' :: ('4' :: ('-' :: ('0' :: ('1' :: ('-' :: ('0' :: ('1' ::
            (' ' :: ('0' :: ('0' :: (':' :: ('0' :: ('0' :: (':' :: ('0' :: ('0' ::
            []))))))))))))))))))) ∧
    random_date JAN1_2023 JAN1_2024 365 0 = JAN1_2024 ∧
    ¬ random_date JAN1_2023 JAN1_2024 365 0 < JAN1_2024 ∧
    random_date JAN1_2023 JAN1_2024 365 86400 = JAN1_2024 + 86400 := by
  refine ⟨by decide, by decide, by decide, by decide⟩

/-- C4: each generated file is one header line followed by exactly the
configured number of data rows, and batch2's new-plus-duplicate split sums
back to its configured row count. -/
theorem c4_row_counts (np nm nb : Nat) (rndP rndM rndB : Nat → Nat) :
    (generate_players np rndP).length = np + 1 ∧
    (generate_players np rndP).getD 0 [] = playersHeader ∧
    (generate_matches np nm rndM).length = nm + 1 ∧
    (generate_matches np nm rndM).getD 0 [] = matchesHeader ∧
    (generate_batch2_with_duplicates np nb (generate_matches np nm rndM) rndB).length
      = nb + 1 ∧
    (generate_batch2_with_duplicates np nb (generate_matches np nm rndM) rndB).getD 0 []
      = matchesHeader ∧
    (nb - duplicateCount nb) + duplicateCount nb = nb := by
  have hd : duplicateCount nb ≤ nb := Nat.div_le_self nb 10
  refine ⟨?_, rfl, ?_, rfl, ?_, rfl, by omega⟩
  · simp [generate_players]
  · simp [generate_matches]
  · simp only [generate_batch2_with_duplicates, List.length_cons, List.length_append,
      List.length_map, List.length_range]
    omega

/-- C5: every `player_id` written to the matches file, and the first field
of every batch2 row (freshly sampled or duplicated from the matches
prefix), parses back to an integer in `[11, 10 + numPlayers]`. -/
theorem c5_player_id_range (np nm nb : Nat) (hnp : 1 ≤ np) (hnm : 1 ≤ nm)
    (rndM rndB : Nat → Nat) :
    (∀ line ∈ (generate_matches np nm rndM).drop 1,
      11 ≤ digitsVal (fieldAt line 0) ∧ digitsVal (fieldAt line 0) ≤ 10 + np) ∧
    (∀ line ∈ (generate_batch2_with_duplicates np nb
        (generate_matches np nm rndM) rndB).drop 1,
      11 ≤ digitsVal (fieldAt line 0) ∧ digitsVal (fieldAt line 0) ≤ 10 + np) := by
  refine ⟨?_, ?_⟩
  · intro line hline
    rw [generate_matches_data] at hline
    obtain ⟨i, hi, rfl⟩ := List.mem_map.mp hline
    rw [matchLine_pid]
    exact matchPlayerId_bounds np _ hnp
  · intro line hline
    rw [generate_batch2_data] at hline
    rcases List.mem_append.mp hline with hl | hl
    · obtain ⟨i, hi, rfl⟩ := List.mem_map.mp hl
      rw [matchLine_pid]
      exact matchPlayerId_bounds np _ hnp
    · obtain ⟨j, hj, rfl⟩ := List.mem_map.mp hl
      obtain ⟨i, hi, h1000, hix, heq, hgd, hmem⟩ := batch2_dup_master np nm hnm rndM _
      rw [heq, matchLine_pid]
      exact matchPlayerId_bounds np _ hnp

theorem c5_player_id_range_witness :
    (1 ≤ 1 ∧ 1 ≤ 1) ∧
    ((∀ line ∈ (generate_matches 1 1 zeroRnd).drop 1,
      11 ≤ digitsVal (fieldAt line 0) ∧ digitsVal (fieldAt line 0) ≤ 10 + 1) ∧
    (∀ line ∈ (generate_batch2_with_duplicates 1 10
        (generate_matches 1 1 zeroRnd) zeroRnd).drop 1,
      11 ≤ digitsVal (fieldAt line 0) ∧ digitsVal (fieldAt line 0) ≤ 10 + 1)) :=
  ⟨⟨by decide, by decide⟩,
    c5_player_id_range 1 1 10 (by decide) (by decide) zeroRnd zeroRnd⟩

/-- C7: every `score` written to the matches file and to batch2 (both fresh
and duplicated rows) parses back to an integer in `[100, 5000]`. -/
theorem c7_score_range (np nm nb : Nat) (hnm : 1 ≤ nm) (rndM rndB : Nat → Nat) :
    (∀ line ∈ (generate_matches np nm rndM).drop 1,
      100 ≤ digitsVal (fieldAt line 1) ∧ digitsVal (fieldAt line 1) ≤ 5000) ∧
    (∀ line ∈ (generate_batch2_with_duplicates np nb
        (generate_matches np nm rndM) rndB).drop 1,
      100 ≤ digitsVal (fieldAt line 1) ∧ digitsVal (fieldAt line 1) ≤ 5000) := by
  refine ⟨?_, ?_⟩
  · intro line hline
    rw [generate_matches_data] at hline
    obtain ⟨i, hi, rfl⟩ := List.mem_map.mp hline
    rw [matchLine_score]
    exact matchScore_bounds _
  · intro line hline
    rw [generate_batch2_data] at hline
    rcases List.mem_append.mp hline with hl | hl
    · obtain ⟨i, hi, rfl⟩ := List.mem_map.mp hl
      rw [matchLine_score]
      exact matchScore_bounds _
    · obtain ⟨j, hj, rfl⟩ := List.mem_map.mp hl
      obtain ⟨i, hi, h1000, hix, heq, hgd, hmem⟩ := batch2_dup_master np nm hnm rndM _
      rw [heq, matchLine_score]
      exact matchScore_bounds _

theorem c7_score_range_witness :
    1 ≤ 1 ∧
    ((∀ line ∈ (generate_matches 1 1 zeroRnd).drop 1,
      100 ≤ digitsVal (fieldAt line 1) ∧ digitsVal (fieldAt line 1) ≤ 5000) ∧
    (∀ line ∈ (generate_batch2_with_duplicates 1 10
        (generate_matches 1 1 zeroRnd) zeroRnd).drop 1,
      100 ≤ digitsVal (fieldAt line 1) ∧ digitsVal (fieldAt line 1) ≤ 5000)) :=
  ⟨by decide, c7_score_range 1 1 10 (by decide) zeroRnd zeroRnd⟩

/-- C2: at least `floor(numBatch2 * 0.1)` rows of the batch2 file are
byte-identical to some row among the first 1000 data rows of the matches
file, whenever the matches file was generated with at least 1000 rows. -/
theorem c2_duplicate_guarantee (np nm nb : Nat) (hnm : 1000 ≤ nm)
    (rndM rndB : Nat → Nat) :
    nb / 10 ≤ ((generate_batch2_with_duplicates np nb
        (generate_matches np nm rndM) rndB).drop 1).countP
      (fun l => decide (l ∈ ((generate_matches np nm rndM).drop 1).take 1000)) := by
  rw [generate_batch2_data, List.countP_append]
  have hall : ∀ l ∈ (List.range (duplicateCount nb)).map
      (fun j => csvRow (randChoice (cachedRows (generate_matches np nm rndM))
        (rndB (4 * (nb - duplicateCount nb) + j)))),
      (fun l => decide (l ∈ ((generate_matches np nm rndM).drop 1).take 1000)) l
        = true := by
    intro l hl
    obtain ⟨j, hj, rfl⟩ := List.mem_map.mp hl
    obtain ⟨i, hi, h1000, hix, heq, hgd, hmem⟩ :=
      batch2_dup_master np nm (by omega) rndM (rndB (4 * (nb - duplicateCount nb) + j))
    exact decide_eq_true hmem
  rw [List.countP_eq_length.mpr hall]
  simp only [List.length_map, List.length_range]
  have : duplicateCount nb = nb / 10 := rfl
  omega

theorem c2_duplicate_guarantee_witness :
    1000 ≤ 1000 ∧
    10 / 10 ≤ ((generate_batch2_with_duplicates 1 10
        (generate_matches 1 1000 zeroRnd) zeroRnd).drop 1).countP
      (fun l => decide (l ∈ ((generate_matches 1 1000 zeroRnd).drop 1).take 1000)) :=
  ⟨by decide, c2_duplicate_guarantee 1 1000 10 (by decide) zeroRnd zeroRnd⟩

/-- C3: the batch2 generator computes `num_duplicates` as the floor of
`numBatch2 * 0.1` and `num_new` as the rest; it writes exactly `num_new`
freshly sampled rows (date window starting 2023-06-01) first, then exactly
`num_duplicates` rows, the `j`-th of which is byte-identical to the matches
data row whose index is the `j`-th duplicate draw reduced modulo 1000 — a
per-row uniformly random pick among the 1000 cached prefix rows. -/
theorem c3_batch2_write_plan (np nm nb : Nat) (hnm : 1000 ≤ nm)
    (rndM rndB : Nat → Nat) :
    duplicateCount nb = Nat.floor ((nb : ℚ) * (1 / 10)) ∧
    ((generate_batch2_with_duplicates np nb
        (generate_matches np nm rndM) rndB).drop 1).length
      = (nb - duplicateCount nb) + duplicateCount nb ∧
    ((generate_batch2_with_duplicates np nb
        (generate_matches np nm rndM) rndB).drop 1).take (nb - duplicateCount nb)
      = (List.range (nb - duplicateCount nb)).map
          (fun i => csvRow (matchFields np JUN1_2023 JAN1_2024 rndB i)) ∧
    (cachedRows (generate_matches np nm rndM)).length = 1000 ∧
    ∀ j < duplicateCount nb,
      ((generate_batch2_with_duplicates np nb
          (generate_matches np nm rndM) rndB).drop 1).getD
          ((nb - duplicateCount nb) + j) []
        = ((generate_matches np nm rndM).drop 1).getD
            (rndB (4 * (nb - duplicateCount nb) + j) % 1000) [] := by
  refine ⟨?_, ?_, ?_, ?_, ?_⟩
  · rw [mul_one_div, (by norm_num : ((10 : ℚ)) = ((10 : Nat) : ℚ)), Nat.floor_div_nat,
      Nat.floor_natCast]
    rfl
  · rw [generate_batch2_data]
    simp
  · rw [generate_batch2_data]
    exact take_append_of_length _ _ _ (by simp)
  · rw [cachedRows_length]
    omega
  · intro j hj
    rw [generate_batch2_data]
    rw [List.getD_append_right _ _ _ _ (by simp)]
    simp only [List.length_map, List.length_range]
    rw [show nb - duplicateCount nb + j - (nb - duplicateCount nb) = j from by omega]
    rw [range_map_getD _ _ j [] hj]
    obtain ⟨i, hi, h1000, hix, heq, hgd, hmem⟩ :=
      batch2_dup_master np nm (by omega) rndM (rndB (4 * (nb - duplicateCount nb) + j))
    rw [hgd]
    rw [cachedRows_length] at hix
    rw [show (1000 : Nat) ⊓ nm = 1000 from by omega] at hix
    rw [← hix]

theorem c3_batch2_write_plan_witness :
    1000 ≤ 1000 ∧
    (duplicateCount 10 = Nat.floor ((10 : ℚ) * (1 / 10)) ∧
    ((generate_batch2_with_duplicates 1 10
        (generate_matches 1 1000 zeroRnd) zeroRnd).drop 1).length
      = (10 - duplicateCount 10) + duplicateCount 10 ∧
    ((generate_batch2_with_duplicates 1 10
        (generate_matches 1 1000 zeroRnd) zeroRnd).drop 1).take (10 - duplicateCount 10)
      = (List.range (10 - duplicateCount 10)).map
          (fun i => csvRow (matchFields 1 JUN1_2023 JAN1_2024 zeroRnd i)) ∧
    (cachedRows (generate_matches 1 1000 zeroRnd)).length = 1000 ∧
    ∀ j < duplicateCount 10,
      ((generate_batch2_with_duplicates 1 10
          (generate_matches 1 1000 zeroRnd) zeroRnd).drop 1).getD
          ((10 - duplicateCount 10) + j) []
        = ((generate_matches 1 1000 zeroRnd).drop 1).getD
            (zeroRnd (4 * (10 - duplicateCount 10) + j) % 1000) []) :=
  ⟨by decide, c3_batch2_write_plan 1 1000 10 (by decide) zeroRnd zeroRnd⟩

theorem digit_ne_underscore {c : Char} (h : isDigitChar c = true) : c ≠ '_' := by
  intro he
  subst he
  exact absurd h (by decide)

theorem lastComp_username (i ra rn : Nat) :
    lastComp (playerUsername i ra rn) = natDigits i := by
  unfold playerUsername
  have hshape : randChoice adjectives ra ++ '_' :: (randChoice nouns rn ++ '_' :: natDigits i)
      = (randChoice adjectives ra ++ '_' :: randChoice nouns rn) ++ '_' :: natDigits i := by
    rw [List.append_assoc, List.cons_append]
  rw [hshape, lastComp_append]
  intro c hc
  exact digit_ne_underscore (natDigits_digits i c hc)

theorem playerLine_username (rnd : Nat → Nat) (i : Nat) :
    fieldAt (csvRow (playerFields rnd i)) 0
      = playerUsername i (rnd (4 * i)) (rnd (4 * i + 1)) := by
  unfold fieldAt
  rw [playerLine_fields]
  rfl

theorem playerLine_email (rnd : Nat → Nat) (i : Nat) :
    fieldAt (csvRow (playerFields rnd i)) 1
      = playerUsername i (rnd (4 * i)) (rnd (4 * i + 1)) ++ emailDomain := by
  unfold fieldAt
  rw [playerLine_fields]
  rfl

theorem usernameFn_injective (rnd : Nat → Nat) :
    Function.Injective (fun i => playerUsername i (rnd (4 * i)) (rnd (4 * i + 1))) := by
  intro a b h
  simp only at h
  have hsfx := congrArg lastComp h
  rw [lastComp_username, lastComp_username] at hsfx
  exact natDigits_injective hsfx

/-- C6: the usernames of the players file are pairwise distinct, and the
reason is structural: the final underscore-separated component of row `i`'s
username is the decimal rendering of the unique loop index `i`. -/
theorem c6_usernames_distinct (np : Nat) (rndP : Nat → Nat) :
    (((generate_players np rndP).drop 1).map (fun l => fieldAt l 0)).Nodup ∧
    ∀ i < np,
      lastComp (fieldAt (((generate_players np rndP).drop 1).getD i []) 0)
        = natDigits i := by
  constructor
  · rw [generate_players_data, List.map_map]
    have hcomp : ((fun l => fieldAt l 0) ∘ fun i => csvRow (playerFields rndP i))
        = fun i => playerUsername i (rndP (4 * i)) (rndP (4 * i + 1)) := by
      funext i
      exact playerLine_username rndP i
    rw [hcomp]
    exact List.Nodup.map (usernameFn_injective rndP) (List.nodup_range np)
  · intro i hi
    rw [generate_players_data, range_map_getD _ _ i [] hi, playerLine_username,
      lastComp_username]

theorem c6_usernames_distinct_witness :
    (((generate_players 3 zeroRnd).drop 1).map (fun l => fieldAt l 0)).Nodup ∧
    ∀ i < 3,
      lastComp (fieldAt (((generate_players 3 zeroRnd).drop 1).getD i []) 0)
        = natDigits i :=
  c6_usernames_distinct 3 zeroRnd

/-- C9: the numeric suffix of the `(i+1)`-th data row's username is exactly
the 0-based loop index `i` — so it runs `0 .. numPlayers - 1` and differs
from the 1-based row id `i + 1`, and the first row's suffix `0` lies below
the match generators' player-id lower bound `11`. -/
theorem c9_username_suffix (np : Nat) (rndP : Nat → Nat) :
    ∀ i < np,
      digitsVal (lastComp (fieldAt (((generate_players np rndP).drop 1).getD i []) 0))
          = i ∧
      digitsVal (lastComp (fieldAt (((generate_players np rndP).drop 1).getD i []) 0))
          ≠ i + 1 ∧
      (i = 0 →
        digitsVal (lastComp (fieldAt (((generate_players np rndP).drop 1).getD i []) 0))
          < 11) := by
  intro i hi
  rw [generate_players_data, range_map_getD _ _ i [] hi, playerLine_username,
    lastComp_username, digitsVal_natDigits]
  exact ⟨rfl, by omega, fun h => by omega⟩

theorem c9_username_suffix_witness :
    digitsVal (lastComp (fieldAt (((generate_players 2 zeroRnd).drop 1).getD 1 []) 0))
        = 1 ∧
    digitsVal (lastComp (fieldAt (((generate_players 2 zeroRnd).drop 1).getD 1 []) 0))
        ≠ 1 + 1 ∧
    (1 = 0 →
      digitsVal (lastComp (fieldAt (((generate_players 2 zeroRnd).drop 1).getD 1 []) 0))
        < 11) :=
  c9_username_suffix 2 zeroRnd 1 (by decide)

/-- One-or-more lowercase letters: the `[a-z]+` atom. -/
def LowerWord (w : List Char) : Prop := w ≠ [] ∧ ∀ c ∈ w, isLowerAlpha c = true

/-- One-or-more decimal digits: the `\d+` atom. -/
def DigitWord (w : List Char) : Prop := w ≠ [] ∧ ∀ c ∈ w, isDigitChar c = true

/-- Matching semantics of the row regex of the example scenario:
a decomposition of the line into the successive groups of
`[a-z]+_[a-z]+_\d+,[a-z]+_[a-z]+_\d+@gamers\.example\.com,` followed by a
`\d-4 \d-2 \d-2 \d-2 \d-2 \d-2` timestamp, anchored at both ends. -/
def PlayerLineRegex (line : List Char) : Prop :=
  ∃ a1 n1 d1 a2 n2 d2 ts,
    LowerWord a1 ∧ LowerWord n1 ∧ DigitWord d1 ∧
    LowerWord a2 ∧ LowerWord n2 ∧ DigitWord d2 ∧ TsShape ts ∧
    line = a1 ++ '_' :: (n1 ++ '_' :: (d1 ++ ',' ::
      (a2 ++ '_' :: (n2 ++ '_' :: (d2 ++ emailDomain ++ ',' :: ts)))))

theorem playerLine_regex (rnd : Nat → Nat) (i : Nat) :
    PlayerLineRegex (csvRow (playerFields rnd i)) := by
  have hns := playerFields_noSpecial rnd i
  unfold playerFields at hns ⊢
  rw [csvRow_three (hns _ (by simp)) (hns _ (by simp)) (hns _ (by simp))]
  have hadj := adjectives_sound _ (randChoice_mem adjectives (rnd (4 * i)) (by decide))
  have hnoun := nouns_sound _ (randChoice_mem nouns (rnd (4 * i + 1)) (by decide))
  refine ⟨randChoice adjectives (rnd (4 * i)), randChoice nouns (rnd (4 * i + 1)),
    natDigits i, randChoice adjectives (rnd (4 * i)), randChoice nouns (rnd (4 * i + 1)),
    natDigits i, fmtTimestamp (random_date JAN1_2023 JAN1_2024 (rnd (4 * i + 2))
      (rnd (4 * i + 3))),
    hadj, hnoun, ⟨natDigits_ne_nil i, natDigits_digits i⟩,
    hadj, hnoun, ⟨natDigits_ne_nil i, natDigits_digits i⟩,
    fmtTimestamp_shape _, ?_⟩
  unfold playerUsername
  simp [List.append_assoc]

/-- C8: with `NUM_PLAYERS = 5`, every run of the players generator produces
one header line plus exactly five data lines, each matching the row regex,
and each row's email field is exactly its username field followed by
`@gamers.example.com`. -/
theorem c8_example_scenario (rnd : Nat → Nat) :
    (generate_players 5 rnd).length = 6 ∧
    (generate_players 5 rnd).getD 0 [] = playersHeader ∧
    ∀ line ∈ (generate_players 5 rnd).drop 1,
      PlayerLineRegex line ∧ fieldAt line 1 = fieldAt line 0 ++ emailDomain := by
  refine ⟨by simp [generate_players], rfl, ?_⟩
  intro line hline
  rw [generate_players_data] at hline
  obtain ⟨i, hi, rfl⟩ := List.mem_map.mp hline
  refine ⟨playerLine_regex rnd i, ?_⟩
  rw [playerLine_email, playerLine_username]

theorem c8_example_scenario_witness :
    PlayerLineRegex (((generate_players 5 zeroRnd).drop 1).getD 0 []) ∧
    fieldAt (((generate_players 5 zeroRnd).drop 1).getD 0 []) 1
      = fieldAt (((generate_players 5 zeroRnd).drop 1).getD 0 []) 0 ++ emailDomain :=
  (c8_example_scenario zeroRnd).2.2 _ (by decide)

/-- A written line that is exactly three fields joined by two commas, each
field drawn from the generator's character classes (lowercase letters,
digits, `_ @ . - space :`), so that none contains a delimiter, quote or
line break and `csv.writer` leaves all three unquoted. -/
def ThreeFieldLine (line : List Char) : Prop :=
  ∃ f1 f2 f3,
    (∀ c ∈ f1, isAllowedChar c = true) ∧ (∀ c ∈ f2, isAllowedChar c = true) ∧
    (∀ c ∈ f3, isAllowedChar c = true) ∧
    csvField f1 = f1 ∧ csvField f2 = f2 ∧ csvField f3 = f3 ∧
    line = f1 ++ ',' :: (f2 ++ ',' :: f3)

theorem threeFieldLine_of_allowed {f1 f2 f3 : List Char}
    (h1 : ∀ c ∈ f1, isAllowedChar c = true) (h2 : ∀ c ∈ f2, isAllowedChar c = true)
    (h3 : ∀ c ∈ f3, isAllowedChar c = true) :
    ThreeFieldLine (csvRow [f1, f2, f3]) := by
  have n1 := noSpecial_of_allowed h1
  have n2 := noSpecial_of_allowed h2
  have n3 := noSpecial_of_allowed h3
  exact ⟨f1, f2, f3, h1, h2, h3, csvField_of_noSpecial n1, csvField_of_noSpecial n2,
    csvField_of_noSpecial n3, csvRow_three n1 n2 n3⟩

theorem playerLine_threeField (rnd : Nat → Nat) (i : Nat) :
    ThreeFieldLine (csvRow (playerFields rnd i)) := by
  have h := playerFields_allowed rnd i
  unfold playerFields at h ⊢
  exact threeFieldLine_of_allowed (h _ (by simp)) (h _ (by simp)) (h _ (by simp))

theorem matchLine_threeField (np s e : Nat) (rnd : Nat → Nat) (i : Nat) :
    ThreeFieldLine (csvRow (matchFields np s e rnd i)) := by
  have h := matchFields_allowed np s e rnd i
  unfold matchFields at h ⊢
  exact threeFieldLine_of_allowed (h _ (by simp)) (h _ (by simp)) (h _ (by simp))

/-- C10: every data row of all three files is exactly three fields joined
by two commas, the fields built only from the generator's benign character
classes; no field ever contains a comma, double quote or line break, so
`csv.writer` applies no quoting or escaping, for every run and every row. -/
theorem c10_no_csv_quoting (np nm nb : Nat) (hnm : 1 ≤ nm)
    (rndP rndM rndB : Nat → Nat) :
    (∀ line ∈ (generate_players np rndP).drop 1, ThreeFieldLine line) ∧
    (∀ line ∈ (generate_matches np nm rndM).drop 1, ThreeFieldLine line) ∧
    (∀ line ∈ (generate_batch2_with_duplicates np nb
        (generate_matches np nm rndM) rndB).drop 1, ThreeFieldLine line) := by
  refine ⟨?_, ?_, ?_⟩
  · intro line hline
    rw [generate_players_data] at hline
    obtain ⟨i, hi, rfl⟩ := List.mem_map.mp hline
    exact playerLine_threeField rndP i
  · intro line hline
    rw [generate_matches_data] at hline
    obtain ⟨i, hi, rfl⟩ := List.mem_map.mp hline
    exact matchLine_threeField np _ _ rndM i
  · intro line hline
    rw [generate_batch2_data] at hline
    rcases List.mem_append.mp hline with hl | hl
    · obtain ⟨i, hi, rfl⟩ := List.mem_map.mp hl
      exact matchLine_threeField np _ _ rndB i
    · obtain ⟨j, hj, rfl⟩ := List.mem_map.mp hl
      obtain ⟨i, hi, h1000, hix, heq, hgd, hmem⟩ := batch2_dup_master np nm hnm rndM _
      rw [heq]
      exact matchLine_threeField np _ _ rndM i

theorem c10_no_csv_quoting_witness :
    1 ≤ 1 ∧
    ((∀ line ∈ (generate_players 1 zeroRnd).drop 1, ThreeFieldLine line) ∧
    (∀ line ∈ (generate_matches 1 1 zeroRnd).drop 1, ThreeFieldLine line) ∧
    (∀ line ∈ (generate_batch2_with_duplicates 1 10
        (generate_matches 1 1 zeroRnd) zeroRnd).drop 1, ThreeFieldLine line)) :=
  ⟨by decide, c10_no_csv_quoting 1 1 10 (by decide) zeroRnd zeroRnd zeroRnd⟩

end GenData
